import Mathlib

/-!
Verification of the EmoBot conversational assistant (src/main.py).

The Python source is shallowly embedded: the user store (a JSON-backed dict
keyed by user id) becomes an association list `Users`; Python strings become
Lean `String` / `List Char`; the remote HTTP completion call is a parameter
(`HttpOutcome`) supplied to `openrouter_chat`; the wall clock (current hour,
current date, current timestamp) is supplied as explicit arguments to the
handlers that read it.  Each handler returns the resulting store together
with the list of store states that were persisted (`save_users` calls) and
the text replies produced, so that persistence-ordering properties can be
stated.
-/

set_option autoImplicit false

namespace EmoBot

/-- Python `l[-n:]`: the suffix of the last `n` elements (all of them when
the list is shorter). -/
def takeLast {α : Type} (n : Nat) (l : List α) : List α :=
  l.drop (l.length - n)

/-- Characters treated as whitespace by Python `str.strip()`. -/
def isPySpace (c : Char) : Bool :=
  c = ' ' || c = '\t' || c = '\n' || c = '\r' || c = Char.ofNat 11 || c = Char.ofNat 12

/-- Python `str.strip()` on a character list: drop leading and trailing
whitespace. -/
def pyStrip (l : List Char) : List Char :=
  ((l.dropWhile isPySpace).reverse.dropWhile isPySpace).reverse

/-- Python `str.strip()` on a `String`. -/
def pyStripStr (s : String) : String :=
  String.mk (pyStrip s.toList)

/-- Python `str.lower()` (ASCII case folding suffices for the inputs the
program compares: the persona labels). -/
def pyLower (s : String) : String :=
  s.map Char.toLower

/-- One chat turn, `{'role': ..., 'content': ...}` in the source. -/
structure Turn where
  role : String
  content : String
deriving DecidableEq

/-- The per-user profile record created by `register_personality` and
mutated by `handle_message` / `send_followups`.  Optional fields model
Python `None`. -/
structure UserProfile where
  name : Option String
  time : Option String
  personality : Option String
  last_topic : Option String
  history : List Turn
  last_sent_date : Option String
  last_sent_time : Option String
  last_message_date : Option String
deriving DecidableEq

/-- The user store: the JSON dict of `users.json`, keyed by the stringified
Telegram user id.  Insertion order is kept, keys are unique in any store the
program itself produces. -/
abbrev Users : Type := List (String × UserProfile)

/-- Dict lookup `users[uid]` / `uid in users` (first matching key). -/
def getUser : Users → String → Option UserProfile
  | [], _ => none
  | (k, v) :: rest, uid => if k = uid then some v else getUser rest uid

/-- Dict assignment `users[uid] = profile`: replace the value at an existing
key in place, append a fresh key at the end. -/
def setUser : Users → String → UserProfile → Users
  | [], uid, p => [(uid, p)]
  | (k, v) :: rest, uid, p =>
    if k = uid then (uid, p) :: rest else (k, v) :: setUser rest uid p

/-- JSON values, used both for the response body of the completion endpoint
and for the persisted user file.  This is the value level of Python
`json.load` / `json.dump`; the textual encoding is the standard library of
the host language and is treated as an external inverse pair. -/
inductive Json where
  | null
  | bool (b : Bool)
  | num (n : Int)
  | str (s : String)
  | arr (elems : List Json)
  | obj (fields : List (String × Json))

/-- Python truthiness of a JSON value (`if not content: ...`). -/
def pyTruthy : Json → Bool
  | Json.null => false
  | Json.bool b => b
  | Json.num n => decide (n ≠ 0)
  | Json.str s => !(s.isEmpty)
  | Json.arr xs => !(xs.isEmpty)
  | Json.obj fs => !(fs.isEmpty)

/-- Boolean list-prefix test on characters. -/
def isPrefixB : List Char → List Char → Bool
  | [], _ => true
  | _ :: _, [] => false
  | a :: as, b :: bs => a = b && isPrefixB as bs

/-- Boolean substring test on characters (Python `needle in haystack` for
strings). -/
def isSubstrB : List Char → List Char → Bool
  | pat, [] => pat.isEmpty
  | pat, c :: rest => isPrefixB pat (c :: rest) || isSubstrB pat rest

/-- First value stored under a key in a JSON object field list. -/
def lookupField : List (String × Json) → String → Option Json
  | [], _ => none
  | (k, v) :: rest, key => if k = key then some v else lookupField rest key

/-- Python `key in data` for a JSON value; `Except.error` models the
`TypeError` raised on argument-less containers, which the source catches
with its blanket `except`. -/
def pyIn (key : String) (data : Json) : Except Unit Bool :=
  match data with
  | Json.obj fs => Except.ok (fs.any (fun f => f.1 = key))
  | Json.arr xs =>
    Except.ok (xs.any (fun x => match x with | Json.str s => s = key | _ => false))
  | Json.str s => Except.ok (isSubstrB key.toList s.toList)
  | _ => Except.error ()

/-- Python subscript `data[key]` with a string key. -/
def pySubS (data : Json) (key : String) : Except Unit Json :=
  match data with
  | Json.obj fs =>
    match lookupField fs key with
    | some v => Except.ok v
    | none => Except.error ()
  | _ => Except.error ()

/-- Python subscript `data[0]`. -/
def pySubZero (data : Json) : Except Unit Json :=
  match data with
  | Json.arr (x :: _) => Except.ok x
  | Json.arr [] => Except.error ()
  | Json.str s =>
    match s.toList with
    | c :: _ => Except.ok (Json.str (String.mk [c]))
    | [] => Except.error ()
  | _ => Except.error ()

/-- Python `len(data)`. -/
def pyLen (data : Json) : Except Unit Nat :=
  match data with
  | Json.obj fs => Except.ok fs.length
  | Json.arr xs => Except.ok xs.length
  | Json.str s => Except.ok s.length
  | _ => Except.error ()

/-- Content extraction of `openrouter_chat` (src/main.py lines 112-118):
walk `data["choices"][0]` looking for `message.content` or `text`.
`Except.error` is any raised exception, `Except.ok none` means no content
was assigned. -/
def extractContent (data : Json) : Except Unit (Option Json) := do
  let hasChoices ← pyIn "choices" data
  let nonEmpty ←
    if hasChoices then do
      let cs ← pySubS data "choices"
      let n ← pyLen cs
      pure (decide (0 < n))
    else
      pure false
  if nonEmpty then do
    let cs ← pySubS data "choices"
    let choice ← pySubZero cs
    let hasMsg ← pyIn "message" choice
    let msgHasContent ←
      if hasMsg then do
        let m ← pySubS choice "message"
        pyIn "content" m
      else
        pure false
    if msgHasContent then do
      let m ← pySubS choice "message"
      let c ← pySubS m "content"
      pure (some c)
    else do
      let hasText ← pyIn "text" choice
      if hasText then do
        let c ← pySubS choice "text"
        pure (some c)
      else
        pure none
  else
    pure none

/-- Outcome of the HTTP POST to the completion endpoint, as observed by the
code inside the `try` block: either some exception was raised (network
error, timeout, non-2xx via `raise_for_status`, body that is not JSON), or
a JSON body was obtained. -/
inductive HttpOutcome where
  | exn
  | ok (body : Json)

/-- Fallback returned when the response body carries no usable content. -/
def FALLBACK_FORMAT : String :=
  "Lo siento, tuve un problema al procesar la respuesta."

/-- Fallback returned when an exception is raised inside the `try`. -/
def FALLBACK_CONN : String :=
  "Lo siento, no puedo conectarme con el servicio de IA ahora mismo."

/-- System prompt selection (src/main.py lines 87-95). -/
def systemPromptFor (personality : String) : String :=
  if (pyLower personality).startsWith "p" then
    "Eres Peter, un asistente educativo y emocional masculino. Eres calmado, reflexivo y racional, pero empático. Usas un lenguaje sereno, motivador y lógico."
  else
    "Eres Wuen, una asistente emocional y educativa femenina. Eres cálida, comprensiva y cercana. Hablas con ternura y empatía, ayudando a las personas a sentirse escuchadas y guiadas."

/-- Message list construction of `openrouter_chat` (src/main.py lines
97-102). -/
def buildMessages (userMessage personality : String) (lastTopic : Option String)
    (history : List Turn) : List Turn :=
  let base := [Turn.mk "system" (systemPromptFor personality)]
  let withTopic :=
    match lastTopic with
    | some t => if t.isEmpty then base else base ++ [Turn.mk "system" ("Último tema del usuario: " ++ t)]
    | none => base
  let withHist := if history.isEmpty then withTopic else withTopic ++ takeLast 8 history
  withHist ++ [Turn.mk "user" userMessage]

/-- Embedding of `openrouter_chat` (src/main.py lines 86-125).  The network
interaction is the `net` argument; every failure path maps to one of the
two fixed fallback strings, and a non-string truthy content value makes
`content.strip()` raise, which the blanket `except` also maps to
`FALLBACK_CONN`. -/
def openrouter_chat (userId userMessage personality : String) (lastTopic : Option String)
    (history : List Turn) (net : HttpOutcome) : String :=
  match net with
  | HttpOutcome.exn => FALLBACK_CONN
  | HttpOutcome.ok data =>
    match extractContent data with
    | Except.error _ => FALLBACK_CONN
    | Except.ok none => FALLBACK_FORMAT
    | Except.ok (some content) =>
      if pyTruthy content then
        match content with
        | Json.str s => pyStripStr s
        | _ => FALLBACK_CONN
      else
        FALLBACK_FORMAT

/-- Characterisation of the success path of `openrouter_chat`: `some` of
the stripped content exactly when the endpoint returned a body carrying a
truthy string content, `none` on every failure. -/
def completionSuccess (net : HttpOutcome) : Option String :=
  match net with
  | HttpOutcome.exn => none
  | HttpOutcome.ok data =>
    match extractContent data with
    | Except.ok (some (Json.str s)) => if s.isEmpty then none else some (pyStripStr s)
    | _ => none

/-- Separator list of the topic extractor, in the order the source checks
them (src/main.py line 131). -/
def sepList : List Char := ['.', '!', '?', '\n']

/-- Python `message.split(sep)[0]`: the prefix before the first occurrence
of `sep`. -/
def beforeSep (msg : List Char) (sep : Char) : List Char :=
  msg.takeWhile (fun c => !(c = sep : Bool))

/-- Loop body of `extract_topic_from_message`: try each separator in order;
a separator that occurs in the message and leaves a nonempty stripped
prefix ends the loop with that prefix (truncated to 120 and re-stripped). -/
def trySeps : List Char → List Char → Option (List Char)
  | [], _ => none
  | sep :: rest, msg =>
    if sep ∈ msg then
      if pyStrip (beforeSep msg sep) = [] then
        trySeps rest msg
      else
        some (pyStrip ((pyStrip (beforeSep msg sep)).take 120))
    else
      trySeps rest msg

/-- Embedding of `extract_topic_from_message` (src/main.py lines 128-136)
on character lists. -/
def extract_topic_from_message (message : List Char) : List Char :=
  if message = [] then
    []
  else
    match trySeps sepList message with
    | some r => r
    | none => (pyStrip message).take 120

/-- Topic extraction on `String`s, as called from `handle_message`. -/
def extractTopicStr (s : String) : String :=
  String.mk (extract_topic_from_message s.toList)

/-- Reading of claim C4, following the words of the spec: the text up to
the first sentence-terminal character occurring in the message, or the
whole text truncated to 120 characters when none occurs. -/
def extractTopicClaimed (message : List Char) : List Char :=
  if message.any (fun c => decide (c ∈ sepList)) then
    message.takeWhile (fun c => !(decide (c ∈ sepList)))
  else
    message.take 120

/-- Qualifying test of the amended claim C4: the separator occurs in the
message and the stripped prefix before its first occurrence is nonempty. -/
def sepQualifies (msg : List Char) (sep : Char) : Bool :=
  decide (sep ∈ msg) && !(decide (pyStrip (beforeSep msg sep) = []))

/-- Amended reading of claim C4: the extractor is driven by the first
qualifying separator in the fixed check order `.`, `!`, `?`, newline — not
by the first terminal character occurring in the text — and the fallback
result is stripped before truncation. -/
def extractTopicAmended (message : List Char) : List Char :=
  if message = [] then
    []
  else
    match sepList.find? (sepQualifies message) with
    | some sep => pyStrip ((pyStrip (beforeSep message sep)).take 120)
    | none => (pyStrip message).take 120

/-- Reply of `handle_message` to an unregistered user (src/main.py line
195). -/
def NOT_REGISTERED : String :=
  "Aún no estás registrado. Envía /start para registrarte."

/-- Result of one `handle_message` invocation: the final store, the list of
store states passed to `save_users` (in order), and the reply text sent to
the user. -/
structure HandleResult where
  final : Users
  saves : List Users
  reply : String

/-- Embedding of `handle_message` (src/main.py lines 190-212).  `nowIso`
is `datetime.now(LOCAL_TZ).isoformat()`; `net` is the outcome of the HTTP
completion call.  The model is the sequential execution: the re-load after
the completion call returns the store saved just before it. -/
def handle_message (users : Users) (uid rawText nowIso : String) (net : HttpOutcome) :
    HandleResult :=
  let text := pyStripStr rawText
  match getUser users uid with
  | none => HandleResult.mk users [] NOT_REGISTERED
  | some user =>
    let personality := user.personality.getD "Wuen"
    let history1 := user.history ++ [Turn.mk "user" text]
    let lastTopic := extractTopicStr text
    let user1 :=
      { user with
        last_topic := some lastTopic,
        history := takeLast 30 history1,
        last_message_date := some nowIso }
    let users1 := setUser users uid user1
    let reply := openrouter_chat uid text personality (some lastTopic) history1 net
    let users2 :=
      match getUser users1 uid with
      | some q =>
        setUser users1 uid { q with history := takeLast 30 (q.history ++ [Turn.mk "assistant" reply]) }
      | none => users1
    HandleResult.mk users2 [users1, users2] reply

/-- Result of the final registration step: final store, saved store
states, and the replies sent. -/
structure RegisterResult where
  final : Users
  saves : List Users
  replies : List String

/-- Fixed greeting prompt sent to the model right after registration
(src/main.py line 185). -/
def GREETING : String :=
  "Hola! Me alegra conocerte. ¿Quieres contarme cómo te sientes hoy?"

/-- Embedding of `register_personality` (src/main.py lines 161-188), the
step that validates the persona choice and creates the profile.  `name`
and `time` are the values collected (and, for `time`, validated) by the
earlier dialogue states.  An invalid persona re-prompts and changes
nothing; a valid one overwrites `users[uid]` with a fresh profile. -/
def register_personality (users : Users) (uid name time rawPers : String) (net : HttpOutcome) :
    RegisterResult :=
  let pers := pyStripStr rawPers
  if pers = "Peter" ∨ pers = "Wuen" then
    let profile : UserProfile :=
      { name := some name, time := some time, personality := some pers,
        last_topic := none, history := [], last_sent_date := none,
        last_sent_time := none, last_message_date := none }
    let users1 := setUser users uid profile
    let confirmation :=
      "Perfecto, " ++ name ++ "! 🤖 Ya estás registrado con la personalidad " ++ pers ++ "."
    let reply := openrouter_chat uid GREETING pers none [] net
    RegisterResult.mk users1 [users1] [confirmation, reply]
  else
    RegisterResult.mk users [] ["Por favor elige Peter o Wuen."]

/-- Rendering Python `None` inside an f-string. -/
def showOpt : Option String → String
  | some s => s
  | none => "None"

/-- Embedding of the read-only `/perfil` command (src/main.py lines
214-227): it takes the store and produces only a reply text. -/
def perfil (users : Users) (uid : String) : String :=
  match getUser users uid with
  | none => "No estás registrado. Usa /start para registrarte."
  | some u =>
    "Nombre: " ++ showOpt u.name ++ "\n" ++
    "Personalidad: " ++ showOpt u.personality ++ "\n" ++
    "Horario: " ++ showOpt u.time ++ "\n" ++
    "Último tema: " ++ showOpt u.last_topic ++ "\n"

/-- Timeslot → hour-of-day map (src/main.py line 48). -/
def TIMESLOT_HOUR : List (String × Nat) :=
  [("mañana", 8), ("manana", 8), ("tarde", 15), ("noche", 21)]

/-- Eligibility test of one dispatcher iteration (src/main.py lines
246-251): skip when the profile has no truthy timeslot, when the current
local hour is not the target hour (an unknown timeslot has target `None`,
which never equals the hour), or when `last_sent_date` is already today. -/
def eligibleB (hour : Nat) (today : String) (info : UserProfile) : Bool :=
  match info.time with
  | none => false
  | some ts =>
    if ts = "" then
      false
    else
      match List.lookup ts TIMESLOT_HOUR with
      | none => false
      | some target => decide (hour = target) && !(decide (info.last_sent_date = some today))

/-- Prompt built for an eligible user (src/main.py line 255). -/
def followupPrompt (info : UserProfile) : String :=
  let nm := info.name.getD ""
  match info.last_topic with
  | some t =>
    if t.isEmpty then
      "Hola " ++ nm ++ ", ¿cómo te sientes hoy?"
    else
      "Hola " ++ nm ++ ", recordando que hablaste sobre: " ++ t ++ ". ¿Cómo te fue desde entonces?"
  | none => "Hola " ++ nm ++ ", ¿cómo te sientes hoy?"

/-- One send attempt recorded by the dispatcher: the user id, the text
handed to `send_message`, and whether the send succeeded. -/
structure Attempt where
  uid : String
  text : String
  sent : Bool
deriving DecidableEq

/-- Attempt produced for one store entry during a tick, if any: eligible
users get exactly one attempt whose text is the completion reply and whose
outcome is given by the delivery oracle `sendOk`; ineligible users get
none.  The attempt depends only on the entry itself and the tick inputs. -/
def attemptOf (hour : Nat) (today : String) (net : String → HttpOutcome)
    (sendOk : String → String → Bool) (entry : String × UserProfile) : Option Attempt :=
  if eligibleB hour today entry.2 then
    let reply := openrouter_chat entry.1 (followupPrompt entry.2) (entry.2.personality.getD "Wuen")
      entry.2.last_topic entry.2.history (net entry.1)
    some (Attempt.mk entry.1 reply (sendOk entry.1 reply))
  else
    none

/-- Test that an entry both is eligible and has its send succeed. -/
def attemptSucceeds (hour : Nat) (today : String) (net : String → HttpOutcome)
    (sendOk : String → String → Bool) (entry : String × UserProfile) : Bool :=
  match attemptOf hour today net sendOk entry with
  | some a => a.sent
  | none => false

/-- Loop body of `send_followups` (src/main.py lines 245-266): on a
successful send the entry is updated (`last_sent_date`, `last_sent_time`,
history appended and truncated) in the shared store, which is then saved;
on a failed send the store is untouched and the loop continues. -/
def followupStep (hour : Nat) (today nowIso : String) (net : String → HttpOutcome)
    (sendOk : String → String → Bool) (acc : Users × List Attempt × List Users)
    (entry : String × UserProfile) : Users × List Attempt × List Users :=
  match attemptOf hour today net sendOk entry with
  | none => acc
  | some a =>
    if a.sent then
      let info2 :=
        { entry.2 with
          last_sent_date := some today,
          last_sent_time := some nowIso,
          history := takeLast 30 (entry.2.history ++ [Turn.mk "assistant" a.text]) }
      let map2 := setUser acc.1 entry.1 info2
      (map2, acc.2.1 ++ [a], acc.2.2 ++ [map2])
    else
      (acc.1, acc.2.1 ++ [a], acc.2.2)

/-- Embedding of one `send_followups` tick (src/main.py lines 240-266).
`hour` is `datetime.now(LOCAL_TZ).hour`, `today` is
`date.today().isoformat()`, `nowIso` is `now.isoformat()`.  The result is
the final store, the list of send attempts in iteration order, and the
store states saved. -/
def send_followups (hour : Nat) (today nowIso : String) (net : String → HttpOutcome)
    (sendOk : String → String → Bool) (users : Users) : Users × List Attempt × List Users :=
  users.foldl (followupStep hour today nowIso net sendOk) (users, [], [])

/-- Hardcoded fallback value of `TELEGRAM_TOKEN` (src/main.py line 33). -/
def TELEGRAM_TOKEN_DEFAULT : String :=
  "8238105603:AAGBIEiWVZD7EfSN8KN06FebIxsf1qD6apk"

/-- Hardcoded fallback value of `OPENROUTER_API_KEY` (src/main.py line
34). -/
def OPENROUTER_API_KEY_DEFAULT : String :=
  "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"

/-- Python `os.getenv(name) or default`: an unset or empty environment
variable falls back to the hardcoded literal. -/
def resolveSecret (env : Option String) (dflt : String) : String :=
  match env with
  | some s => if s.isEmpty then dflt else s
  | none => dflt

/-- Startup configuration check (src/main.py lines 33-39): resolve both
secrets, then raise `EnvironmentError` when either is falsy. -/
def configCheck (envToken envKey : Option String) : Except String (String × String) :=
  let token := resolveSecret envToken TELEGRAM_TOKEN_DEFAULT
  let key := resolveSecret envKey OPENROUTER_API_KEY_DEFAULT
  if token.isEmpty ∨ key.isEmpty then
    Except.error "❌ Falta configurar las variables TELEGRAM_TOKEN y OPENROUTER_API_KEY en Railway."
  else
    Except.ok (token, key)

/-- State of the backing file `data/users.json`: absent, present with
contents that are not valid JSON, or present with a JSON value. -/
inductive FileState where
  | missing
  | corrupt (raw : String)
  | valid (content : Json)

/-- Embedding of `_load_users_sync` (src/main.py lines 68-73): `open`
raises `FileNotFoundError` on a missing file (nothing catches it), a
`json.JSONDecodeError` is caught and turned into the empty dict, and valid
JSON is returned as parsed. -/
def load_users_sync : FileState → Except String Json
  | FileState.missing => Except.error "FileNotFoundError"
  | FileState.corrupt _ => Except.ok (Json.obj [])
  | FileState.valid j => Except.ok j

/-- Module-level startup initialisation (src/main.py lines 57-62): create
the file with an empty JSON object when it does not exist. -/
def startupInit : FileState → FileState
  | FileState.missing => FileState.valid (Json.obj [])
  | s => s

/-- Encoding of an optional string field as JSON (`None` ↦ `null`). -/
def encodeOptStr : Option String → Json
  | none => Json.null
  | some s => Json.str s

/-- Decoding of an optional string field. -/
def decodeOptStr : Json → Option (Option String)
  | Json.null => some none
  | Json.str s => some (some s)
  | _ => none

/-- Encoding of one history turn. -/
def encodeTurn (t : Turn) : Json :=
  Json.obj [("role", Json.str t.role), ("content", Json.str t.content)]

/-- Decoding of one history turn. -/
def decodeTurn : Json → Option Turn
  | Json.obj [("role", Json.str r), ("content", Json.str c)] => some (Turn.mk r c)
  | _ => none

/-- Decoding of a list, failing when any element fails. -/
def optionMapM {α β : Type} (f : α → Option β) : List α → Option (List β)
  | [] => some []
  | x :: xs => do
    let y ← f x
    let ys ← optionMapM f xs
    pure (y :: ys)

/-- Encoding of a profile as the JSON object `json.dump` writes for it. -/
def encodeProfile (p : UserProfile) : Json :=
  Json.obj
    [("name", encodeOptStr p.name),
     ("time", encodeOptStr p.time),
     ("personality", encodeOptStr p.personality),
     ("last_topic", encodeOptStr p.last_topic),
     ("history", Json.arr (p.history.map encodeTurn)),
     ("last_sent_date", encodeOptStr p.last_sent_date),
     ("last_sent_time", encodeOptStr p.last_sent_time),
     ("last_message_date", encodeOptStr p.last_message_date)]

/-- Decoding of a profile from its JSON object. -/
def decodeProfile : Json → Option UserProfile
  | Json.obj
      [("name", jn), ("time", jt), ("personality", jp), ("last_topic", jlt),
       ("history", Json.arr jh), ("last_sent_date", jlsd), ("last_sent_time", jlst),
       ("last_message_date", jlmd)] => do
    let nm ← decodeOptStr jn
    let tm ← decodeOptStr jt
    let pe ← decodeOptStr jp
    let lt ← decodeOptStr jlt
    let hist ← optionMapM decodeTurn jh
    let lsd ← decodeOptStr jlsd
    let lst ← decodeOptStr jlst
    let lmd ← decodeOptStr jlmd
    pure (UserProfile.mk nm tm pe lt hist lsd lst lmd)
  | _ => none

/-- Encoding of the whole store mapping. -/
def encodeUsers (users : Users) : Json :=
  Json.obj (users.map (fun e => (e.1, encodeProfile e.2)))

/-- Decoding of the whole store mapping. -/
def decodeUsers : Json → Option Users
  | Json.obj fs => optionMapM (fun e => (decodeProfile e.2).map (fun p => (e.1, p))) fs
  | _ => none

/-- Embedding of `save_users` (src/main.py lines 75-81): rewrite the whole
file with the JSON encoding of the mapping.  The textual rendering and
re-parsing performed by the host JSON library is treated as an external
inverse pair, so the file is modelled at the JSON-value level. -/
def save_users (users : Users) : FileState :=
  FileState.valid (encodeUsers users)

/-- Observable operations that write the store, for stating invariants
over arbitrary interleavings: the final registration step, one
conversational turn, and one dispatcher tick. -/
inductive Op where
  | register (uid name time pers : String) (net : HttpOutcome)
  | message (uid text nowIso : String) (net : HttpOutcome)
  | tick (hour : Nat) (today nowIso : String) (net : String → HttpOutcome)
      (sendOk : String → String → Bool)

/-- Store transition of one operation, paired with the store states it
saved. -/
def stepResult (users : Users) : Op → Users × List Users
  | Op.register uid name time pers net =>
    let r := register_personality users uid name time pers net
    (r.final, r.saves)
  | Op.message uid text nowIso net =>
    let r := handle_message users uid text nowIso net
    (r.final, r.saves)
  | Op.tick hour today nowIso net sendOk =>
    let r := send_followups hour today nowIso net sendOk users
    (r.1, r.2.2)

/-- All store states saved while running a sequence of operations. -/
def runSaves (users : Users) : List Op → List Users
  | [] => []
  | op :: rest =>
    let r := stepResult users op
    r.2 ++ runSaves r.1 rest

/-- Bounded-history invariant of the store: every profile holds at most 30
turns. -/
def histBound (users : Users) : Prop :=
  ∀ uid p, getUser users uid = some p → p.history.length ≤ 30

/-- View of the registration-time fields of a stored profile: the persona
and the timeslot. -/
def ptv (m : Users) (u : String) : Option (Option String × Option String) :=
  (getUser m u).map (fun p => (p.personality, p.time))

/-! Basic lemmas about the store primitives. -/

theorem takeLast_length_le {α : Type} (n : Nat) (l : List α) :
    (takeLast n l).length ≤ n := by
  unfold takeLast
  rw [List.length_drop]
  omega

theorem getUser_setUser_self (m : Users) (k : String) (v : UserProfile) :
    getUser (setUser m k v) k = some v := by
  induction m with
  | nil => simp [setUser, getUser]
  | cons e rest ih =>
    obtain ⟨a, b⟩ := e
    by_cases hak : a = k
    · simp [setUser, hak, getUser]
    · simp [setUser, hak, getUser, ih]

theorem getUser_setUser_ne (m : Users) (k k2 : String) (v : UserProfile)
    (h : k2 ≠ k) : getUser (setUser m k v) k2 = getUser m k2 := by
  have hkk : ¬(k = k2) := fun hh => h hh.symm
  induction m with
  | nil => simp [setUser, getUser, hkk]
  | cons e rest ih =>
    obtain ⟨a, b⟩ := e
    by_cases hak : a = k
    · subst hak
      simp [setUser, getUser, hkk]
    · simp [setUser, getUser, hak, ih]

theorem getUser_of_nodup_mem (m : Users) (k : String) (v : UserProfile)
    (hnd : (m.map Prod.fst).Nodup) (hmem : (k, v) ∈ m) : getUser m k = some v := by
  induction m with
  | nil => cases hmem
  | cons e rest ih =>
    obtain ⟨a, b⟩ := e
    rw [List.map_cons, List.nodup_cons] at hnd
    rcases List.mem_cons.mp hmem with heq | htail
    · cases heq
      simp [getUser]
    · have hak : a ≠ k := by
        intro hak
        apply hnd.1
        subst hak
        exact List.mem_map.mpr ⟨(a, v), htail, rfl⟩
      simp [getUser, hak, ih hnd.2 htail]

theorem nodup_keys_mem_unique (m : Users) (k : String) (a b : UserProfile)
    (hnd : (m.map Prod.fst).Nodup) (ha : (k, a) ∈ m) (hb : (k, b) ∈ m) : a = b := by
  have h1 := getUser_of_nodup_mem m k a hnd ha
  have h2 := getUser_of_nodup_mem m k b hnd hb
  rw [h1] at h2
  exact Option.some_inj.mp h2

/-! Lemmas about the topic extractor. -/

theorem trySeps_eq_find (seps : List Char) (msg : List Char) :
    trySeps seps msg =
      (seps.find? (sepQualifies msg)).map
        (fun sep => pyStrip ((pyStrip (beforeSep msg sep)).take 120)) := by
  induction seps with
  | nil => simp [trySeps, List.find?]
  | cons sep rest ih =>
    by_cases hc : sep ∈ msg
    · by_cases he : pyStrip (beforeSep msg sep) = []
      · have hq : sepQualifies msg sep = false := by
          simp [sepQualifies, hc, he]
        simp [trySeps, hc, he, List.find?, hq, ih]
      · have hq : sepQualifies msg sep = true := by
          simp [sepQualifies, hc, he]
        simp [trySeps, hc, he, List.find?, hq]
    · have hq : sepQualifies msg sep = false := by
        simp [sepQualifies, hc]
      simp [trySeps, hc, List.find?, hq, ih]

/-- C4 (amended): the extractor is characterised by the first qualifying
separator in the fixed check order `.`, `!`, `?`, newline (not by the first
terminal character occurring in the text), the chosen prefix is stripped
and truncated to 120 characters, and when no separator qualifies the
stripped message is truncated to 120 characters; on the spec example the
result is the text before the period. -/
theorem extract_topic_checks_separators_in_order :
    (∀ m, extract_topic_from_message m = extractTopicAmended m) ∧
    extract_topic_from_message ("Hello there. How are you?".toList) = "Hello there".toList ∧
    extract_topic_from_message ("nopunctuation".toList) = "nopunctuation".toList := by
  refine ⟨fun m => ?_, by decide, by decide⟩
  unfold extract_topic_from_message extractTopicAmended
  rw [trySeps_eq_find]
  cases h : sepList.find? (sepQualifies m) <;> simp

/-- C4 (counterexample): on `"Hola! Adios."` the first sentence-terminal
character in the text is the exclamation mark, so the claimed reading
yields `"Hola"`, while the code checks the period first and returns
`"Hola! Adios"`; moreover input without any terminal character is stripped,
not returned verbatim. -/
theorem extract_topic_not_first_terminal :
    extract_topic_from_message ("Hola! Adios.".toList) ≠
      extractTopicClaimed ("Hola! Adios.".toList) ∧
    extract_topic_from_message ("Hola! Adios.".toList) = "Hola! Adios".toList ∧
    extractTopicClaimed ("Hola! Adios.".toList) = "Hola".toList ∧
    extract_topic_from_message (" hola ".toList) ≠ " hola ".toList := by
  refine ⟨by decide, by decide, by decide, by decide⟩

theorem handle_message_eq (users : Users) (uid rawText nowIso : String)
    (net : HttpOutcome) (p : UserProfile) (hg : getUser users uid = some p) :
    handle_message users uid rawText nowIso net =
      (let text := pyStripStr rawText
       let user1 :=
         { p with
           last_topic := some (extractTopicStr text),
           history := takeLast 30 (p.history ++ [Turn.mk "user" text]),
           last_message_date := some nowIso }
       let users1 := setUser users uid user1
       let reply := openrouter_chat uid text (p.personality.getD "Wuen")
         (some (extractTopicStr text)) (p.history ++ [Turn.mk "user" text]) net
       let users2 := setUser users1 uid
         { user1 with history := takeLast 30 (user1.history ++ [Turn.mk "assistant" reply]) }
       HandleResult.mk users2 [users1, users2] reply) := by
  unfold handle_message
  rw [hg]
  dsimp only
  rw [getUser_setUser_self]

/-! Lemmas about the completion client. -/

theorem openrouter_fallback (userId userMessage personality : String)
    (lastTopic : Option String) (history : List Turn) (net : HttpOutcome)
    (h : completionSuccess net = none) :
    openrouter_chat userId userMessage personality lastTopic history net = FALLBACK_CONN ∨
    openrouter_chat userId userMessage personality lastTopic history net = FALLBACK_FORMAT := by
  cases net with
  | exn => exact Or.inl rfl
  | ok data =>
    cases hec : extractContent data with
    | error e => left; simp [openrouter_chat, hec]
    | ok oc =>
      cases oc with
      | none => right; simp [openrouter_chat, hec]
      | some c =>
        by_cases ht : pyTruthy c = true
        · cases c with
          | str s =>
            exfalso
            simp only [completionSuccess, hec] at h
            have hse : s.isEmpty = true := by
              by_contra hne
              simp [hne] at h
            simp [pyTruthy, hse] at ht
          | null => simp [pyTruthy] at ht
          | bool b => left; simp [openrouter_chat, hec, ht]
          | num n => left; simp [openrouter_chat, hec, ht]
          | arr xs => left; simp [openrouter_chat, hec, ht]
          | obj fs => left; simp [openrouter_chat, hec, ht]
        · right; simp [openrouter_chat, hec, ht]

/-- C3: on any failure of the completion call — a raised exception
(network error, timeout, non-2xx status, non-JSON body) or a JSON body
without usable content — `openrouter_chat` returns one of the two fixed
localized fallback strings and never raises; and during a conversational
turn with such a failure the reply equals that fallback while the user
turn was already persisted by the first save, before the call. -/
theorem completion_failure_fallback_and_persistence
    (userId userMessage personality : String) (lastTopic : Option String) (history : List Turn)
    (users : Users) (uid rawText nowIso : String) (net : HttpOutcome) (p : UserProfile)
    (hfail : completionSuccess net = none) (hreg : getUser users uid = some p) :
    (openrouter_chat userId userMessage personality lastTopic history net = FALLBACK_CONN ∨
     openrouter_chat userId userMessage personality lastTopic history net = FALLBACK_FORMAT) ∧
    ((handle_message users uid rawText nowIso net).reply = FALLBACK_CONN ∨
     (handle_message users uid rawText nowIso net).reply = FALLBACK_FORMAT) ∧
    (∃ s1 s2 q,
      (handle_message users uid rawText nowIso net).saves = [s1, s2] ∧
      getUser s1 uid = some q ∧
      q.history = takeLast 30 (p.history ++ [Turn.mk "user" (pyStripStr rawText)]) ∧
      q.last_topic = some (extractTopicStr (pyStripStr rawText))) := by
  refine ⟨openrouter_fallback userId userMessage personality lastTopic history net hfail, ?_, ?_⟩
  · have hr : (handle_message users uid rawText nowIso net).reply =
        openrouter_chat uid (pyStripStr rawText) (p.personality.getD "Wuen")
          (some (extractTopicStr (pyStripStr rawText)))
          (p.history ++ [Turn.mk "user" (pyStripStr rawText)]) net := by
      unfold handle_message
      rw [hreg]
    rw [hr]
    exact openrouter_fallback _ _ _ _ _ _ hfail
  · have hs : (handle_message users uid rawText nowIso net).saves =
        [setUser users uid
          { p with
            last_topic := some (extractTopicStr (pyStripStr rawText)),
            history := takeLast 30 (p.history ++ [Turn.mk "user" (pyStripStr rawText)]),
            last_message_date := some nowIso },
         (handle_message users uid rawText nowIso net).final] := by
      unfold handle_message
      rw [hreg]
    refine ⟨_, _, _, hs, getUser_setUser_self _ _ _, rfl, rfl⟩

/-! Theorems about startup configuration (claim C6). -/

theorem resolveSecret_isEmpty_false (env : Option String) (dflt : String)
    (hd : dflt.isEmpty = false) : (resolveSecret env dflt).isEmpty = false := by
  cases env with
  | none => exact hd
  | some s =>
    by_cases hs : s.isEmpty <;> simp [resolveSecret, hs, hd]

/-- C6 (code evaluated at the failing input): with both secrets missing
from the environment, startup does not abort — the hardcoded fallback
credentials are used and the configuration check passes; indeed the check
passes for every environment, so the `EnvironmentError` branch is
unreachable. -/
theorem missing_secrets_do_not_abort :
    configCheck none none = Except.ok (TELEGRAM_TOKEN_DEFAULT, OPENROUTER_API_KEY_DEFAULT) ∧
    ∀ envToken envKey, ∃ pair, configCheck envToken envKey = Except.ok pair := by
  constructor
  · rfl
  · intro envToken envKey
    have h1 : (resolveSecret envToken TELEGRAM_TOKEN_DEFAULT).isEmpty = false :=
      resolveSecret_isEmpty_false _ _ rfl
    have h2 : (resolveSecret envKey OPENROUTER_API_KEY_DEFAULT).isEmpty = false :=
      resolveSecret_isEmpty_false _ _ rfl
    refine ⟨(resolveSecret envToken TELEGRAM_TOKEN_DEFAULT,
             resolveSecret envKey OPENROUTER_API_KEY_DEFAULT), ?_⟩
    unfold configCheck
    rw [if_neg]
    simp [h1, h2]

/-! Theorems about the user store backing file (claims C7 and C9). -/

/-- C7 (counterexample): the load operation propagates the I/O error on a
missing backing file — only the JSON decode error is caught. -/
theorem load_missing_file_raises :
    load_users_sync FileState.missing = Except.error "FileNotFoundError" := rfl

/-- C7 (amended): the load operation returns the empty mapping for corrupt
(non-JSON) file contents and never propagates a parse error, and a missing
file is tolerated by the startup initialisation — which creates an empty
store file before any load can run — rather than by the load operation
itself. -/
theorem load_tolerates_corruption :
    (∀ raw, load_users_sync (FileState.corrupt raw) = Except.ok (Json.obj [])) ∧
    (∀ j, load_users_sync (FileState.valid j) = Except.ok j) ∧
    (∀ fs, ∃ j, load_users_sync (startupInit fs) = Except.ok j) := by
  refine ⟨fun raw => rfl, fun j => rfl, fun fs => ?_⟩
  cases fs with
  | missing => exact ⟨Json.obj [], rfl⟩
  | corrupt raw => exact ⟨Json.obj [], rfl⟩
  | valid j => exact ⟨j, rfl⟩

theorem decodeOptStr_encodeOptStr (o : Option String) :
    decodeOptStr (encodeOptStr o) = some o := by
  cases o <;> rfl

theorem decodeTurn_encodeTurn (t : Turn) : decodeTurn (encodeTurn t) = some t := by
  cases t
  rfl

theorem mapM_decodeTurn_encodeTurn (l : List Turn) :
    optionMapM decodeTurn (l.map encodeTurn) = some l := by
  induction l with
  | nil => rfl
  | cons t rest ih => simp [optionMapM, decodeTurn_encodeTurn, ih]

theorem decodeProfile_encodeProfile (p : UserProfile) :
    decodeProfile (encodeProfile p) = some p := by
  cases p
  simp [encodeProfile, decodeProfile, decodeOptStr_encodeOptStr, mapM_decodeTurn_encodeTurn]

theorem decodeUsers_encodeUsers (m : Users) : decodeUsers (encodeUsers m) = some m := by
  unfold decodeUsers encodeUsers
  induction m with
  | nil => rfl
  | cons e rest ih => simp_all [optionMapM, decodeProfile_encodeProfile]

/-- C9: saving any mapping of user identifiers to profiles — including
profiles whose optional fields are absent — and loading it back yields the
saved JSON value without error, and decoding that value recovers the
mapping field-for-field. -/
theorem store_round_trip (m : Users) :
    load_users_sync (save_users m) = Except.ok (encodeUsers m) ∧
    decodeUsers (encodeUsers m) = some m :=
  ⟨rfl, decodeUsers_encodeUsers m⟩

/-- C10: a free-text message from a user with no profile replies with the
registration notice, performs no save, and leaves the store unchanged. -/
theorem unregistered_message_leaves_store_unchanged
    (users : Users) (uid rawText nowIso : String) (net : HttpOutcome)
    (h : getUser users uid = none) :
    (handle_message users uid rawText nowIso net).final = users ∧
    (handle_message users uid rawText nowIso net).saves = [] ∧
    (handle_message users uid rawText nowIso net).reply = NOT_REGISTERED := by
  unfold handle_message
  rw [h]
  exact ⟨rfl, rfl, rfl⟩

/-! Lemmas about the follow-up dispatcher loop. -/

theorem histBound_setUser (m : Users) (k : String) (v : UserProfile)
    (hm : histBound m) (hv : v.history.length ≤ 30) : histBound (setUser m k v) := by
  intro uid p hp
  by_cases huk : uid = k
  · subst huk
    rw [getUser_setUser_self] at hp
    cases hp
    exact hv
  · rw [getUser_setUser_ne m k uid v huk] at hp
    exact hm uid p hp

theorem followup_fold_attempts (hour : Nat) (today nowIso : String)
    (net : String → HttpOutcome) (sendOk : String → String → Bool) :
    ∀ (l : List (String × UserProfile)) (map : Users) (atts : List Attempt) (svs : List Users),
    (l.foldl (followupStep hour today nowIso net sendOk) (map, atts, svs)).2.1 =
      atts ++ l.filterMap (attemptOf hour today net sendOk) := by
  intro l
  induction l with
  | nil => intro map atts svs; simp
  | cons e rest ih =>
    intro map atts svs
    rw [List.foldl_cons, List.filterMap_cons]
    cases ha : attemptOf hour today net sendOk e with
    | none => simp only [followupStep, ha]; exact ih map atts svs
    | some a =>
      cases hs : a.sent
      · simp only [followupStep, ha, hs, Bool.false_eq_true, if_false]
        rw [ih]
        simp
      · simp only [followupStep, ha, hs, if_true]
        rw [ih]
        simp

theorem followup_fold_map_unchanged (hour : Nat) (today nowIso : String)
    (net : String → HttpOutcome) (sendOk : String → String → Bool) (uid : String) :
    ∀ (l : List (String × UserProfile)) (map : Users) (atts : List Attempt) (svs : List Users),
    (∀ e2 ∈ l, e2.1 = uid → attemptSucceeds hour today net sendOk e2 = false) →
    getUser (l.foldl (followupStep hour today nowIso net sendOk) (map, atts, svs)).1 uid =
      getUser map uid := by
  intro l
  induction l with
  | nil => intro map atts svs _; simp
  | cons e rest ih =>
    intro map atts svs hfail
    rw [List.foldl_cons]
    have hrest : ∀ e2 ∈ rest, e2.1 = uid →
        attemptSucceeds hour today net sendOk e2 = false :=
      fun e2 hm he2 => hfail e2 (List.mem_cons_of_mem e hm) he2
    cases ha : attemptOf hour today net sendOk e with
    | none => simp only [followupStep, ha]; exact ih map atts svs hrest
    | some a =>
      cases hs : a.sent
      · simp only [followupStep, ha, hs, Bool.false_eq_true, if_false]
        exact ih map (atts ++ [a]) svs hrest
      · simp only [followupStep, ha, hs, if_true]
        rw [ih _ _ _ hrest]
        have hne : uid ≠ e.1 := by
          intro heq
          have hf := hfail e (List.mem_cons_self e rest) heq.symm
          simp only [attemptSucceeds, ha] at hf
          rw [hs] at hf
          cases hf
        exact getUser_setUser_ne _ _ _ _ hne

theorem followup_fold_ptv (hour : Nat) (today nowIso : String)
    (net : String → HttpOutcome) (sendOk : String → String → Bool) :
    ∀ (l : List (String × UserProfile)) (map : Users) (atts : List Attempt) (svs : List Users),
    (∀ e ∈ l, ptv map e.1 = some (e.2.personality, e.2.time)) →
    ∀ u2, ptv (l.foldl (followupStep hour today nowIso net sendOk) (map, atts, svs)).1 u2 =
      ptv map u2 := by
  intro l
  induction l with
  | nil => intro map atts svs _ u2; simp
  | cons e rest ih =>
    intro map atts svs hpt u2
    rw [List.foldl_cons]
    cases ha : attemptOf hour today net sendOk e with
    | none =>
      simp only [followupStep, ha]
      exact ih map atts svs (fun e2 h2 => hpt e2 (List.mem_cons_of_mem e h2)) u2
    | some a =>
      cases hs : a.sent
      · simp only [followupStep, ha, hs, Bool.false_eq_true, if_false]
        exact ih map (atts ++ [a]) svs (fun e2 h2 => hpt e2 (List.mem_cons_of_mem e h2)) u2
      · simp only [followupStep, ha, hs, if_true]
        have hstep : ∀ u3, ptv (setUser map e.1
            { e.2 with
              last_sent_date := some today,
              last_sent_time := some nowIso,
              history := takeLast 30 (e.2.history ++ [Turn.mk "assistant" a.text]) }) u3 =
            ptv map u3 := by
          intro u3
          by_cases hu : u3 = e.1
          · subst hu
            rw [ptv, getUser_setUser_self]
            rw [hpt e (List.mem_cons_self e rest)]
            rfl
          · rw [ptv, getUser_setUser_ne _ _ _ _ hu]
            rfl
        rw [ih _ _ _ (fun e2 h2 => by
          rw [hstep e2.1]
          exact hpt e2 (List.mem_cons_of_mem e h2))]
        exact hstep u2

theorem followup_fold_histBound (hour : Nat) (today nowIso : String)
    (net : String → HttpOutcome) (sendOk : String → String → Bool) :
    ∀ (l : List (String × UserProfile)) (map : Users) (atts : List Attempt) (svs : List Users),
    histBound map → (∀ s ∈ svs, histBound s) →
    histBound (l.foldl (followupStep hour today nowIso net sendOk) (map, atts, svs)).1 ∧
    ∀ s ∈ (l.foldl (followupStep hour today nowIso net sendOk) (map, atts, svs)).2.2,
      histBound s := by
  intro l
  induction l with
  | nil => intro map atts svs hm hsv; exact ⟨hm, hsv⟩
  | cons e rest ih =>
    intro map atts svs hm hsv
    rw [List.foldl_cons]
    cases ha : attemptOf hour today net sendOk e with
    | none => simp only [followupStep, ha]; exact ih map atts svs hm hsv
    | some a =>
      cases hs : a.sent
      · simp only [followupStep, ha, hs, Bool.false_eq_true, if_false]
        exact ih map (atts ++ [a]) svs hm hsv
      · simp only [followupStep, ha, hs, if_true]
        have hm2 : histBound (setUser map e.1
            { e.2 with
              last_sent_date := some today,
              last_sent_time := some nowIso,
              history := takeLast 30 (e.2.history ++ [Turn.mk "assistant" a.text]) }) :=
          histBound_setUser map e.1 _ hm (takeLast_length_le 30 _)
        refine ih _ _ _ hm2 ?_
        intro s hsm
        rcases List.mem_append.mp hsm with hold | hnew
        · exact hsv s hold
        · rw [List.mem_singleton.mp hnew]
          exact hm2

theorem attempt_uids_eq_eligible (hour : Nat) (today : String)
    (net : String → HttpOutcome) (sendOk : String → String → Bool)
    (l : List (String × UserProfile)) :
    (l.filterMap (attemptOf hour today net sendOk)).map Attempt.uid =
      (l.filter (fun e => eligibleB hour today e.2)).map Prod.fst := by
  induction l with
  | nil => rfl
  | cons e rest ih =>
    rw [List.filterMap_cons, List.filter_cons]
    cases he : eligibleB hour today e.2
    · have ha : attemptOf hour today net sendOk e = none := by
        simp [attemptOf, he]
      rw [ha]
      simpa using ih
    · have ha : attemptOf hour today net sendOk e =
          some (Attempt.mk e.1
            (openrouter_chat e.1 (followupPrompt e.2) (e.2.personality.getD "Wuen")
              e.2.last_topic e.2.history (net e.1))
            (sendOk e.1 (openrouter_chat e.1 (followupPrompt e.2) (e.2.personality.getD "Wuen")
              e.2.last_topic e.2.history (net e.1)))) := by
        simp [attemptOf, he]
      rw [ha]
      simpa using ih

theorem send_followups_attempts (hour : Nat) (today nowIso : String)
    (net : String → HttpOutcome) (sendOk : String → String → Bool) (users : Users) :
    (send_followups hour today nowIso net sendOk users).2.1 =
      users.filterMap (attemptOf hour today net sendOk) := by
  unfold send_followups
  rw [followup_fold_attempts]
  simp

theorem mem_attempt_uids (hour : Nat) (today nowIso : String)
    (net : String → HttpOutcome) (sendOk : String → String → Bool)
    (users : Users) (hnd : (users.map Prod.fst).Nodup)
    (uid : String) (p : UserProfile) (hmem : (uid, p) ∈ users) :
    uid ∈ ((send_followups hour today nowIso net sendOk users).2.1).map Attempt.uid ↔
      eligibleB hour today p = true := by
  rw [send_followups_attempts, attempt_uids_eq_eligible]
  constructor
  · intro hin
    obtain ⟨e, hef, heu⟩ := List.mem_map.mp hin
    obtain ⟨k2, p2⟩ := e
    have hel := List.mem_filter.mp hef
    dsimp at heu
    subst heu
    have hp2 : p2 = p := nodup_keys_mem_unique users k2 p2 p hnd hel.1 hmem
    rw [← hp2]
    exact hel.2
  · intro hel
    exact List.mem_map.mpr ⟨(uid, p), List.mem_filter.mpr ⟨hmem, hel⟩, rfl⟩

theorem lookup_timeslot_ne_empty (ts : String) (target : Nat)
    (hl : List.lookup ts TIMESLOT_HOUR = some target) : ts ≠ "" := by
  intro hts
  subst hts
  have hnone : List.lookup "" TIMESLOT_HOUR = (none : Option Nat) := by decide
  rw [hnone] at hl
  cases hl

theorem eligibleB_of_lookup (hour target : Nat) (today ts : String) (p : UserProfile)
    (ht : p.time = some ts) (hl : List.lookup ts TIMESLOT_HOUR = some target) :
    eligibleB hour today p =
      (decide (hour = target) && !(decide (p.last_sent_date = some today))) := by
  obtain ⟨nm, tm, pe, lt, hi, lsd, lst, lmd⟩ := p
  simp only at ht
  subst ht
  simp only [eligibleB]
  rw [if_neg (lookup_timeslot_ne_empty ts target hl), hl]

/-- C2: a dispatcher tick never attempts a user without a truthy timeslot;
for every profile whose timeslot maps to a target hour — mañana/manana (8),
tarde (15) and noche (21) alike — the user is skipped when the current hour
differs from the target hour or when `last_sent_date` already equals the
tick date, and is attempted when the hour matches and the recorded date
differs; in particular a `tarde` (hour 15) user with `last_sent_date`
equal to today gets no attempt at hour 15 today, while at hour 15 with a
different recorded date — as on the next day — the user does get an
attempt. -/
theorem followup_at_most_once_per_day
    (users : Users) (hnd : (users.map Prod.fst).Nodup)
    (uid : String) (p : UserProfile) (hmem : (uid, p) ∈ users)
    (hour : Nat) (today nowIso : String) (net : String → HttpOutcome)
    (sendOk : String → String → Bool) :
    (p.time = none ∨ p.time = some "" →
      uid ∉ ((send_followups hour today nowIso net sendOk users).2.1).map Attempt.uid) ∧
    (∀ ts target, p.time = some ts → List.lookup ts TIMESLOT_HOUR = some target →
      (hour ≠ target →
        uid ∉ ((send_followups hour today nowIso net sendOk users).2.1).map Attempt.uid) ∧
      (p.last_sent_date = some today →
        uid ∉ ((send_followups hour today nowIso net sendOk users).2.1).map Attempt.uid) ∧
      (hour = target → p.last_sent_date ≠ some today →
        uid ∈ ((send_followups hour today nowIso net sendOk users).2.1).map Attempt.uid)) ∧
    (p.time = some "tarde" → p.last_sent_date = some today →
      uid ∉ ((send_followups hour today nowIso net sendOk users).2.1).map Attempt.uid) ∧
    (p.time = some "tarde" → hour = 15 → p.last_sent_date ≠ some today →
      uid ∈ ((send_followups hour today nowIso net sendOk users).2.1).map Attempt.uid) := by
  have hiff := mem_attempt_uids hour today nowIso net sendOk users hnd uid p hmem
  have hgen : ∀ ts target, p.time = some ts → List.lookup ts TIMESLOT_HOUR = some target →
      (hour ≠ target →
        uid ∉ ((send_followups hour today nowIso net sendOk users).2.1).map Attempt.uid) ∧
      (p.last_sent_date = some today →
        uid ∉ ((send_followups hour today nowIso net sendOk users).2.1).map Attempt.uid) ∧
      (hour = target → p.last_sent_date ≠ some today →
        uid ∈ ((send_followups hour today nowIso net sendOk users).2.1).map Attempt.uid) := by
    intro ts target ht hl
    have helb := eligibleB_of_lookup hour target today ts p ht hl
    refine ⟨?_, ?_, ?_⟩
    · intro hh hin
      have hel := hiff.mp hin
      rw [helb] at hel
      simp [hh] at hel
    · intro hlsd hin
      have hel := hiff.mp hin
      rw [helb, hlsd] at hel
      simp at hel
    · intro hh hlsd
      rw [hiff, helb]
      simp [hh, hlsd]
  refine ⟨?_, hgen, ?_, ?_⟩
  · intro ht hin
    have hel := hiff.mp hin
    obtain ⟨nm, tm, pe, lt, hi, lsd, lst, lmd⟩ := p
    rcases ht with ht | ht <;> (simp only at ht; subst ht; simp [eligibleB] at hel)
  · intro ht hlsd
    exact (hgen "tarde" 15 ht (by decide)).2.1 hlsd
  · intro ht hh hlsd
    exact (hgen "tarde" 15 ht (by decide)).2.2 hh hlsd

/-- C5: in any dispatcher tick the list of send attempts equals one
attempt per eligible store entry, in store order; which users are
attempted depends only on the profiles and the clock — not on the delivery
outcomes, so one user's failure neither prevents nor duplicates another
user's attempt; the attempted user ids are free of duplicates, so each
eligible user gets at most one attempt; and a user whose send fails keeps
an unchanged profile, in particular `last_sent_date` stays as it was. -/
theorem send_failure_isolated
    (hour : Nat) (today nowIso : String) (net : String → HttpOutcome)
    (sendOk : String → String → Bool) (users : Users)
    (hnd : (users.map Prod.fst).Nodup) :
    ((send_followups hour today nowIso net sendOk users).2.1 =
      users.filterMap (attemptOf hour today net sendOk)) ∧
    (((send_followups hour today nowIso net sendOk users).2.1).map Attempt.uid =
      (users.filter (fun e => eligibleB hour today e.2)).map Prod.fst) ∧
    (((send_followups hour today nowIso net sendOk users).2.1).map Attempt.uid).Nodup ∧
    (∀ uid t p, getUser users uid = some p →
      Attempt.mk uid t false ∈ (send_followups hour today nowIso net sendOk users).2.1 →
      getUser (send_followups hour today nowIso net sendOk users).1 uid = some p) := by
  have hatt := send_followups_attempts hour today nowIso net sendOk users
  have huids : ((send_followups hour today nowIso net sendOk users).2.1).map Attempt.uid =
      (users.filter (fun e => eligibleB hour today e.2)).map Prod.fst := by
    rw [hatt, attempt_uids_eq_eligible]
  refine ⟨hatt, huids, ?_, ?_⟩
  · rw [huids]
    exact List.Nodup.sublist (List.Sublist.map Prod.fst (List.filter_sublist users)) hnd
  · intro uid t p hget hmem
    rw [hatt] at hmem
    obtain ⟨e0, he0mem, ha0⟩ := List.mem_filterMap.mp hmem
    obtain ⟨k0, p0⟩ := e0
    cases heg : eligibleB hour today p0 with
    | false => simp [attemptOf, heg] at ha0
    | true =>
      simp only [attemptOf, heg, if_true] at ha0
      rw [Option.some_inj] at ha0
      have hk0 : k0 = uid := congrArg Attempt.uid ha0
      have hsent : sendOk k0 (openrouter_chat k0 (followupPrompt p0) (p0.personality.getD "Wuen")
          p0.last_topic p0.history (net k0)) = false := congrArg Attempt.sent ha0
      have hpremise : ∀ e2 ∈ users, e2.1 = uid →
          attemptSucceeds hour today net sendOk e2 = false := by
        intro e2 hm2 he2
        obtain ⟨k2, p2⟩ := e2
        dsimp at he2
        have hp20 : p2 = p0 :=
          nodup_keys_mem_unique users uid p2 p0 hnd (he2 ▸ hm2) (hk0 ▸ he0mem)
        rw [he2, hp20]
        simp only [attemptSucceeds, attemptOf, heg, if_true]
        rw [← hk0]
        exact hsent
      unfold send_followups
      rw [followup_fold_map_unchanged hour today nowIso net sendOk uid users users [] [] hpremise]
      exact hget

/-- C8 (counterexample): a repeated registration dialogue overwrites the
profile, mutating both persona and timeslot — registering user 1 with
persona Peter and timeslot tarde and then re-registering with persona Wuen
and timeslot manana changes both stored fields. -/
theorem persona_changed_by_reregistration :
    ((getUser (register_personality [] "1" "Ana" "tarde" "Peter" HttpOutcome.exn).final "1").map
      (fun q => (q.personality, q.time)) = some (some "Peter", some "tarde")) ∧
    ((getUser (register_personality
        (register_personality [] "1" "Ana" "tarde" "Peter" HttpOutcome.exn).final
        "1" "Ana" "manana" "Wuen" HttpOutcome.exn).final "1").map
      (fun q => (q.personality, q.time)) = some (some "Wuen", some "manana")) := by
  constructor
  · rfl
  · rfl

/-- C8 (amended): persona and timeslot are never mutated by a
conversational turn, by a dispatcher tick, or by an invalid persona answer
in the registration dialogue (which leaves the store untouched); the
read-only profile query takes the store and produces only text.  A
completed repeated registration, however, overwrites the whole profile,
persona and timeslot included. -/
theorem persona_timeslot_immutable_outside_registration
    (users : Users) (hnd : (users.map Prod.fst).Nodup)
    (uid rawText nowIso : String) (net : HttpOutcome)
    (hour : Nat) (today tnow : String) (tnet : String → HttpOutcome)
    (sOk : String → String → Bool) (u2 : String) :
    ptv (handle_message users uid rawText nowIso net).final u2 = ptv users u2 ∧
    ptv (send_followups hour today tnow tnet sOk users).1 u2 = ptv users u2 ∧
    (∀ nm ts pr, pyStripStr pr ≠ "Peter" → pyStripStr pr ≠ "Wuen" →
      (register_personality users uid nm ts pr net).final = users ∧
      (register_personality users uid nm ts pr net).saves = []) := by
  refine ⟨?_, ?_, ?_⟩
  · cases hg : getUser users uid with
    | none =>
      have : (handle_message users uid rawText nowIso net).final = users := by
        unfold handle_message
        rw [hg]
      rw [this]
    | some p =>
      rw [handle_message_eq users uid rawText nowIso net p hg]
      dsimp only
      by_cases hu : u2 = uid
      · subst hu
        rw [ptv, getUser_setUser_self, ptv, hg]
        rfl
      · rw [ptv, getUser_setUser_ne _ _ _ _ hu, getUser_setUser_ne _ _ _ _ hu]
        rfl
  · unfold send_followups
    exact followup_fold_ptv hour today tnow tnet sOk users users [] []
      (fun e he => by
        rw [ptv, getUser_of_nodup_mem users e.1 e.2 hnd he]
        rfl) u2
  · intro nm ts pr h1 h2
    have hcond : ¬(pyStripStr pr = "Peter" ∨ pyStripStr pr = "Wuen") := by
      intro hc
      cases hc with
      | inl hc => exact h1 hc
      | inr hc => exact h2 hc
    constructor
    · unfold register_personality
      rw [if_neg hcond]
    · unfold register_personality
      rw [if_neg hcond]

/-! History-bound invariant over arbitrary operation sequences (claim C1). -/

theorem stepResult_histBound (users : Users) (op : Op) (h : histBound users) :
    histBound (stepResult users op).1 ∧ ∀ s ∈ (stepResult users op).2, histBound s := by
  cases op with
  | register uid name time pers net =>
    simp only [stepResult]
    by_cases hc : pyStripStr pers = "Peter" ∨ pyStripStr pers = "Wuen"
    · unfold register_personality
      dsimp only
      rw [if_pos hc]
      dsimp only
      refine ⟨histBound_setUser users uid _ h (by simp), ?_⟩
      intro s hs
      rcases List.mem_cons.mp hs with rfl | hs2
      · exact histBound_setUser users uid _ h (by simp)
      · cases hs2
    · unfold register_personality
      dsimp only
      rw [if_neg hc]
      exact ⟨h, by intro s hs; cases hs⟩
  | message uid text nowIso net =>
    simp only [stepResult]
    cases hg : getUser users uid with
    | none =>
      have hfin : handle_message users uid text nowIso net =
          HandleResult.mk users [] NOT_REGISTERED := by
        unfold handle_message
        rw [hg]
      rw [hfin]
      exact ⟨h, by intro s hs; cases hs⟩
    | some p =>
      rw [handle_message_eq users uid text nowIso net p hg]
      dsimp only
      have hb1 : histBound (setUser users uid
          { p with
            last_topic := some (extractTopicStr (pyStripStr text)),
            history := takeLast 30 (p.history ++ [Turn.mk "user" (pyStripStr text)]),
            last_message_date := some nowIso }) :=
        histBound_setUser users uid _ h (takeLast_length_le 30 _)
      refine ⟨histBound_setUser _ uid _ hb1 (takeLast_length_le 30 _), ?_⟩
      intro s hs
      rcases List.mem_cons.mp hs with rfl | hs2
      · exact hb1
      · rcases List.mem_cons.mp hs2 with rfl | hs3
        · exact histBound_setUser _ uid _ hb1 (takeLast_length_le 30 _)
        · cases hs3
  | tick hour today nowIso net sendOk =>
    simp only [stepResult]
    exact followup_fold_histBound hour today nowIso net sendOk users users [] [] h
      (by intro s hs; cases hs)

theorem runSaves_histBound (ops : List Op) :
    ∀ (users : Users), histBound users → ∀ s ∈ runSaves users ops, histBound s := by
  induction ops with
  | nil => intro users _ s hs; cases hs
  | cons op rest ih =>
    intro users h s hs
    rw [runSaves] at hs
    rcases List.mem_append.mp hs with hstep | hrest
    · exact (stepResult_histBound users op h).2 s hstep
    · exact ih (stepResult users op).1 (stepResult_histBound users op h).1 s hrest

/-- C1: starting from any store whose histories are bounded (in particular
the empty store of a fresh deployment), every store state saved during any
sequence of registrations, conversational turns and dispatcher ticks keeps
every user's history at 30 turns or fewer — both `handle_message` writes,
the registration write and the follow-up write truncate to the last 30. -/
theorem history_bounded_after_any_write (users0 : Users) (h0 : histBound users0)
    (ops : List Op) (s : Users) (hs : s ∈ runSaves users0 ops)
    (uid : String) (p : UserProfile) (hp : getUser s uid = some p) :
    p.history.length ≤ 30 :=
  runSaves_histBound ops users0 h0 s hs uid p hp

/-! Witnesses: the hypotheses of the conditional theorems above are
satisfiable at concrete inputs. -/

/-- Witness for C1: after registering and one conversational turn under a
failing completion endpoint, the saved two-turn history is within the
bound. -/
theorem history_bounded_after_any_write_witness :
    (UserProfile.mk (some "Ana") (some "tarde") (some "Peter") (some "hola")
      [Turn.mk "user" "hola", Turn.mk "assistant" FALLBACK_CONN]
      none none (some "t1")).history.length ≤ 30 :=
  history_bounded_after_any_write [] (fun _ _ h => nomatch h)
    [Op.register "1" "Ana" "tarde" "Peter" HttpOutcome.exn,
     Op.message "1" " hola " "t1" HttpOutcome.exn]
    [("1", UserProfile.mk (some "Ana") (some "tarde") (some "Peter") (some "hola")
      [Turn.mk "user" "hola", Turn.mk "assistant" FALLBACK_CONN] none none (some "t1"))]
    (by decide) "1"
    (UserProfile.mk (some "Ana") (some "tarde") (some "Peter") (some "hola")
      [Turn.mk "user" "hola", Turn.mk "assistant" FALLBACK_CONN] none none (some "t1"))
    (by decide)

/-- Witness for C2: a `noche` (hour 21) user whose `last_sent_date` is
yesterday is attempted at hour 21 on the next day, via the conjunct that
covers every timeslot with a target hour. -/
theorem followup_at_most_once_per_day_witness :
    "1" ∈ ((send_followups 21 "2026-10-13" "T" (fun _ => HttpOutcome.exn) (fun _ _ => true)
      [("1", UserProfile.mk (some "Ana") (some "noche") (some "Peter") none []
        (some "2026-10-12") none none)]).2.1).map Attempt.uid :=
  (((followup_at_most_once_per_day
    [("1", UserProfile.mk (some "Ana") (some "noche") (some "Peter") none []
      (some "2026-10-12") none none)] (by decide) "1"
    (UserProfile.mk (some "Ana") (some "noche") (some "Peter") none []
      (some "2026-10-12") none none) (by decide)
    21 "2026-10-13" "T" (fun _ => HttpOutcome.exn) (fun _ _ => true)).2.1
    "noche" 21 rfl (by decide)).2.2) rfl (by decide)

/-- Witness for C3: with an exception-raising completion call, the reply of
a registered turn is one of the fixed fallback strings. -/
theorem completion_failure_fallback_witness :
    (handle_message
      [("7", UserProfile.mk (some "Eva") (some "noche") (some "Wuen") none [] none none none)]
      "7" " hola " "t0" HttpOutcome.exn).reply = FALLBACK_CONN ∨
    (handle_message
      [("7", UserProfile.mk (some "Eva") (some "noche") (some "Wuen") none [] none none none)]
      "7" " hola " "t0" HttpOutcome.exn).reply = FALLBACK_FORMAT :=
  (completion_failure_fallback_and_persistence "7" "hola" "Wuen" none []
    [("7", UserProfile.mk (some "Eva") (some "noche") (some "Wuen") none [] none none none)]
    "7" " hola " "t0" HttpOutcome.exn
    (UserProfile.mk (some "Eva") (some "noche") (some "Wuen") none [] none none none)
    rfl (by decide)).2.1

/-- Witness for C5: when the single eligible user's send fails, that
user's stored profile is unchanged after the tick. -/
theorem send_failure_isolated_witness :
    getUser (send_followups 15 "D" "T" (fun _ => HttpOutcome.exn) (fun _ _ => false)
      [("1", UserProfile.mk (some "Ana") (some "tarde") (some "Peter") none [] none none none)]).1
      "1" =
      some (UserProfile.mk (some "Ana") (some "tarde") (some "Peter") none [] none none none) :=
  (send_failure_isolated 15 "D" "T" (fun _ => HttpOutcome.exn) (fun _ _ => false)
    [("1", UserProfile.mk (some "Ana") (some "tarde") (some "Peter") none [] none none none)]
    (by decide)).2.2.2 "1" FALLBACK_CONN
    (UserProfile.mk (some "Ana") (some "tarde") (some "Peter") none [] none none none)
    (by decide) (by decide)

/-- Witness for C8: a conversational turn leaves the persona/timeslot view
of the store unchanged. -/
theorem persona_timeslot_immutable_witness :
    ptv (handle_message
      [("1", UserProfile.mk (some "Ana") (some "tarde") (some "Peter") none [] none none none)]
      "1" "hola" "t" HttpOutcome.exn).final "1" =
      ptv [("1", UserProfile.mk (some "Ana") (some "tarde") (some "Peter") none [] none none none)]
        "1" :=
  (persona_timeslot_immutable_outside_registration
    [("1", UserProfile.mk (some "Ana") (some "tarde") (some "Peter") none [] none none none)]
    (by decide) "1" "hola" "t" HttpOutcome.exn 15 "D" "T"
    (fun _ => HttpOutcome.exn) (fun _ _ => true) "1").1

/-- Witness for C10: a message from an unregistered user on the empty
store changes nothing and replies with the registration notice. -/
theorem unregistered_message_witness :
    (handle_message [] "1" "hola" "t0" HttpOutcome.exn).final = [] ∧
    (handle_message [] "1" "hola" "t0" HttpOutcome.exn).saves = [] ∧
    (handle_message [] "1" "hola" "t0" HttpOutcome.exn).reply = NOT_REGISTERED :=
  unregistered_message_leaves_store_unchanged [] "1" "hola" "t0" HttpOutcome.exn rfl

end EmoBot
